import Mathlib

/-!
Verification of the item storage/query layer (the "Persistence Gateway") of
my-go-service: a shallow embedding of `storage/sql.go`, `storage/store.go`
and the validation performed by `api/server/handlers.go`, together with
theorems about the gateway's contract.

The relational table is modelled as a list of rows; UUIDs as `Nat` (only
freshness/equality of identifiers matters); timestamps as `Nat`.
-/

namespace MyGoService

/-- Item, as in `storage/sql.go`: `Description` is a nullable pointer, so it
is an `Option`; absent (`none`) is distinct from the empty string. -/
structure Item where
  id : Nat
  name : String
  description : Option String
  created_at : Nat
  updated_at : Nat
deriving Repr, DecidableEq

/-- CreateItemRequest: `Name` carries the binding tag `required`, so the
adapter rejects a missing or empty name before it reaches the store. -/
structure CreateItemRequest where
  name : String
  description : Option String
deriving Repr, DecidableEq

/-- UpdateItemRequest: both fields are nullable pointers (omitted = `none`),
with no `required` binding on either. -/
structure UpdateItemRequest where
  name : Option String
  description : Option String
deriving Repr, DecidableEq

/-- ListItemsRequest: Go `int` pagination parameters, modelled as `Int`. -/
structure ListItemsRequest where
  limit : Int
  offs : Int
deriving Repr, DecidableEq

/-- ListItemsResponse, as in `storage/sql.go`. -/
structure ListItemsResponse where
  items : List Item
  total : Nat
  limit : Int
  offs : Int
deriving Repr, DecidableEq

/-- The `items` table: a list of rows, in storage order. -/
abbrev Table := List Item

/-- Store-level errors as seen by the gateway: `database/sql`'s `ErrNoRows`
(the store reported zero returned rows) versus any other fault. -/
inductive SqlError where
  | errNoRows
  | other (msg : String)
deriving Repr, DecidableEq

/-- Gateway-classified failures: `notFound` is the "item not found" error the
gateway constructs on `sql.ErrNoRows`; anything else is passed through
unclassified as a generic storage failure. -/
inductive GwError where
  | notFound
  | storage (msg : String)
deriving Repr, DecidableEq

/-- `sqlx` `GetContext` into a single destination: the first returned row,
or `sql.ErrNoRows` when the result set is empty. -/
def getContext (rows : List Item) : Except SqlError Item :=
  match rows with
  | [] => .error .errNoRows
  | it :: _ => .ok it

/-- The error classification in `GetItem`/`UpdateItem`/`DeleteItem`
(`storage/store.go`): `err == sql.ErrNoRows` becomes the "item not found"
error (which the adapter maps to 404); every other error is returned as-is
(a generic storage failure, mapped to 500). -/
def classifyItemError : SqlError → GwError
  | .errNoRows => .notFound
  | .other msg => .storage msg

/-- `getItemQuery`: `SELECT ... FROM items WHERE id = $1`. -/
def getItemRows (tbl : Table) (id : Nat) : List Item :=
  tbl.filter (fun it => it.id == id)

/-- The SET clause of `updateItemQuery` applied to one row:
`name = COALESCE($2, name), description = COALESCE($3, description),
updated_at = NOW()`. `COALESCE` takes the supplied argument when it is
non-NULL (even the empty string) and the current column value otherwise. -/
def applyUpdate (now : Nat) (req : UpdateItemRequest) (it : Item) : Item :=
  { it with
    name := req.name.getD it.name
    description := match req.description with
      | some d => some d
      | none => it.description
    updated_at := now }

/-- `updateItemQuery`: `UPDATE items SET ... WHERE id = $1 RETURNING *`.
Returns the new table and the returned rows (the rows that matched,
post-update). -/
def updateItemRows (tbl : Table) (id : Nat) (now : Nat)
    (req : UpdateItemRequest) : Table × List Item :=
  (tbl.map (fun it => if it.id == id then applyUpdate now req it else it),
   (tbl.filter (fun it => it.id == id)).map (applyUpdate now req))

/-- `deleteItemQuery`: `DELETE FROM items WHERE id = $1 RETURNING *`.
Returns the new table and the deleted rows as they were. -/
def deleteItemRows (tbl : Table) (id : Nat) : Table × List Item :=
  (tbl.filter (fun it => !(it.id == id)), tbl.filter (fun it => it.id == id))

/-- One row as produced by `createItemQuery`
(`INSERT INTO items (name, description) VALUES ($1, $2) RETURNING *`).
Modelled from the spec: the migrations that define the column defaults for
`id`, `created_at` and `updated_at` are not part of the source tree; per the
spec (§3), the store generates a fresh unique id at insert time and sets both
`created_at` and `updated_at` to the creation time. -/
def createItemRow (newId now : Nat) (req : CreateItemRequest) : Item :=
  { id := newId, name := req.name, description := req.description,
    created_at := now, updated_at := now }

/-- `CreateItem` (`storage/store.go`): inserts one row and returns it as
persisted. -/
def CreateItem (tbl : Table) (newId now : Nat) (req : CreateItemRequest) :
    Table × Item :=
  (tbl ++ [createItemRow newId now req], createItemRow newId now req)

/-- `GetItem` (`storage/store.go`): runs `getItemQuery` through `GetContext`
and classifies the error. -/
def GetItem (tbl : Table) (id : Nat) : Except GwError Item :=
  match getContext (getItemRows tbl id) with
  | .error e => .error (classifyItemError e)
  | .ok it => .ok it

/-- `UpdateItem` (`storage/store.go`): runs `updateItemQuery` through
`GetContext` and classifies the error; returns the new table and the row the
query returned. -/
def UpdateItem (tbl : Table) (id now : Nat) (req : UpdateItemRequest) :
    Except GwError (Table × Item) :=
  match getContext (updateItemRows tbl id now req).2 with
  | .error e => .error (classifyItemError e)
  | .ok it => .ok ((updateItemRows tbl id now req).1, it)

/-- `DeleteItem` (`storage/store.go`): runs `deleteItemQuery` through
`GetContext` and classifies the error; returns the new table and the deleted
row's last state. -/
def DeleteItem (tbl : Table) (id : Nat) : Except GwError (Table × Item) :=
  match getContext (deleteItemRows tbl id).2 with
  | .error e => .error (classifyItemError e)
  | .ok it => .ok ((deleteItemRows tbl id).1, it)

/-- The defaulting/clamping at the top of `ListItems` (`storage/store.go`),
applied in source order: `limit <= 0` → 10, then `limit > 100` → 100, then
`offset < 0` → 0. The response echoes these clamped values. -/
def clampListRequest (req : ListItemsRequest) : ListItemsRequest :=
  let req1 := if req.limit ≤ 0 then { req with limit := 10 } else req
  let req2 := if req1.limit > 100 then { req1 with limit := 100 } else req1
  if req2.offs < 0 then { req2 with offs := 0 } else req2

/-- Rows ordered by `created_at` descending (newest first), as demanded by
`ORDER BY created_at DESC`. -/
def SortedDesc (l : List Item) : Prop :=
  l.Pairwise (fun a b => b.created_at ≤ a.created_at)

/-- `listItemsQuery`: `SELECT ... ORDER BY created_at DESC LIMIT $1 OFFSET $2`.
SQL fixes no tie-break between rows with equal `created_at`, so the query is
a relation: `rows` is a valid result when it is the window of SOME
`created_at`-descending arrangement of the table. -/
def ListRows (tbl : Table) (limit offs : Int) (rows : List Item) : Prop :=
  ∃ s : List Item, s.Perm tbl ∧ SortedDesc s ∧
    rows = (s.drop offs.toNat).take limit.toNat

/-- `ListItems` (`storage/store.go`) as a relation between the table, the
request and a possible response: `total` is `countItemsQuery` (the full row
count), `limit`/`offs` echo the clamped request, and `items` is a valid
result of `listItemsQuery` at the clamped window. -/
def ListItems (tbl : Table) (req : ListItemsRequest)
    (resp : ListItemsResponse) : Prop :=
  resp.total = tbl.length ∧
  resp.limit = (clampListRequest req).limit ∧
  resp.offs = (clampListRequest req).offs ∧
  ListRows tbl (clampListRequest req).limit (clampListRequest req).offs
    resp.items

/-- Full system state: the table plus the store clock (the last `NOW()`
issued), used to express that time never runs backwards across operations. -/
structure DbState where
  table : Table
  clock : Nat
deriving Repr, DecidableEq

/-- One mutating gateway call, with the store-chosen id/timestamp data. -/
inductive Action where
  | create (req : CreateItemRequest) (newId now : Nat)
  | update (id : Nat) (req : UpdateItemRequest) (now : Nat)
  | delete (id : Nat)
deriving Repr, DecidableEq

/-- Effect of an action on the state. -/
def stepResult (s : DbState) : Action → DbState
  | .create req newId now => ⟨(CreateItem s.table newId now req).1, now⟩
  | .update id req now => ⟨(updateItemRows s.table id now req).1, now⟩
  | .delete id => ⟨(deleteItemRows s.table id).1, s.clock⟩

/-- Preconditions under which an action can occur: the adapter's validation
(`handlers.go`: create rejects a missing/empty name via the `required`
binding; update requires at least one field present), the store's id
generation (a fresh unique id), and a monotone clock (`NOW()` never runs
backwards). Note the update handler does NOT require a supplied name to be
non-empty. -/
def ValidAction (s : DbState) : Action → Prop
  | .create req newId now =>
      req.name ≠ "" ∧ (∀ it ∈ s.table, it.id ≠ newId) ∧ s.clock ≤ now
  | .update _ req now =>
      (req.name.isSome ∨ req.description.isSome) ∧ s.clock ≤ now
  | .delete _ => True

/-- One system step. -/
def Step (s1 s2 : DbState) : Prop :=
  ∃ a, ValidAction s1 a ∧ s2 = stepResult s1 a

/-- The empty store at time zero. -/
def initState : DbState := ⟨[], 0⟩

/-- States reachable from the empty store through gateway operations. -/
def Reachable : DbState → Prop :=
  Relation.ReflTransGen Step initState

/-! ### Helper lemmas -/

theorem updateItemRows_snd (tbl : Table) (id now : Nat)
    (req : UpdateItemRequest) :
    (updateItemRows tbl id now req).2 =
      (getItemRows tbl id).map (applyUpdate now req) := rfl

theorem deleteItemRows_snd (tbl : Table) (id : Nat) :
    (deleteItemRows tbl id).2 = getItemRows tbl id := rfl

theorem getItemRows_deleteItemRows (tbl : Table) (id : Nat) :
    getItemRows (deleteItemRows tbl id).1 id = [] := by
  simp [getItemRows, deleteItemRows, List.filter_filter]

/-! ### Claims -/

/-- C1: for an existing item id, Update with a supplied field sets that field
to the supplied value and leaves every omitted field at its current persisted
value (field-level merge); in particular `description = some ""` sets the
description to empty while `description = none` leaves it unchanged. -/
theorem update_merge_semantics (tbl : Table) (id now : Nat)
    (req : UpdateItemRequest) (it : Item) (rest : List Item)
    (h : getItemRows tbl id = it :: rest) :
    UpdateItem tbl id now req =
      .ok ((updateItemRows tbl id now req).1, applyUpdate now req it) ∧
    (∀ n, req.name = some n → (applyUpdate now req it).name = n) ∧
    (req.name = none → (applyUpdate now req it).name = it.name) ∧
    (∀ d, req.description = some d →
      (applyUpdate now req it).description = some d) ∧
    (req.description = none →
      (applyUpdate now req it).description = it.description) := by
  refine ⟨?_, ?_, ?_, ?_, ?_⟩
  · unfold UpdateItem
    rw [updateItemRows_snd, h]
    simp [getContext]
  · intro n hn; simp [applyUpdate, hn]
  · intro hn; simp [applyUpdate, hn]
  · intro d hd; simp [applyUpdate, hd]
  · intro hd; simp [applyUpdate, hd]

theorem update_merge_semantics_witness :
    (UpdateItem [⟨1, "a", some "x", 0, 0⟩] 1 5 ⟨some "b", some ""⟩ =
      .ok ((updateItemRows [⟨1, "a", some "x", 0, 0⟩] 1 5
              ⟨some "b", some ""⟩).1,
           applyUpdate 5 ⟨some "b", some ""⟩ ⟨1, "a", some "x", 0, 0⟩)) ∧
    (∀ n, (⟨some "b", some ""⟩ : UpdateItemRequest).name = some n →
      (applyUpdate 5 ⟨some "b", some ""⟩ ⟨1, "a", some "x", 0, 0⟩).name = n) ∧
    ((⟨some "b", some ""⟩ : UpdateItemRequest).name = none →
      (applyUpdate 5 ⟨some "b", some ""⟩ ⟨1, "a", some "x", 0, 0⟩).name =
        (⟨1, "a", some "x", 0, 0⟩ : Item).name) ∧
    (∀ d, (⟨some "b", some ""⟩ : UpdateItemRequest).description = some d →
      (applyUpdate 5 ⟨some "b", some ""⟩
        ⟨1, "a", some "x", 0, 0⟩).description = some d) ∧
    ((⟨some "b", some ""⟩ : UpdateItemRequest).description = none →
      (applyUpdate 5 ⟨some "b", some ""⟩
        ⟨1, "a", some "x", 0, 0⟩).description =
        (⟨1, "a", some "x", 0, 0⟩ : Item).description) :=
  update_merge_semantics [⟨1, "a", some "x", 0, 0⟩] 1 5 ⟨some "b", some ""⟩
    ⟨1, "a", some "x", 0, 0⟩ [] (by decide)

/-- C3: for a valid id that matches no row, Get, Update and Delete all return
`notFound` and never a generic storage failure; the gateway classifies
`notFound` exactly when the store reported zero returned rows
(`sql.ErrNoRows`), and any other store fault is surfaced as a distinct
generic failure. -/
theorem notFound_iff_zero_rows (tbl : Table) (id now : Nat)
    (req : UpdateItemRequest) (h : getItemRows tbl id = []) :
    GetItem tbl id = .error .notFound ∧
    UpdateItem tbl id now req = .error .notFound ∧
    DeleteItem tbl id = .error .notFound ∧
    (∀ e : SqlError, classifyItemError e = .notFound ↔ e = .errNoRows) ∧
    (∀ msg, classifyItemError (.other msg) ≠ .notFound) := by
  refine ⟨?_, ?_, ?_, ?_, ?_⟩
  · unfold GetItem; rw [h]; rfl
  · unfold UpdateItem; rw [updateItemRows_snd, h]; rfl
  · unfold DeleteItem; rw [deleteItemRows_snd, h]; rfl
  · intro e; cases e <;> simp [classifyItemError]
  · intro msg; simp [classifyItemError]

theorem notFound_iff_zero_rows_witness :
    (GetItem [⟨1, "a", none, 0, 0⟩] 2 = .error .notFound) ∧
    (UpdateItem [⟨1, "a", none, 0, 0⟩] 2 7 ⟨some "b", none⟩ =
      .error .notFound) ∧
    (DeleteItem [⟨1, "a", none, 0, 0⟩] 2 = .error .notFound) ∧
    (∀ e : SqlError, classifyItemError e = .notFound ↔ e = .errNoRows) ∧
    (∀ msg, classifyItemError (.other msg) ≠ .notFound) :=
  notFound_iff_zero_rows [⟨1, "a", none, 0, 0⟩] 2 7 ⟨some "b", none⟩
    (by decide)

/-- C4: for an existing item id, Update with neither field supplied leaves
name and description unchanged and strictly advances `updated_at` (given that
the store clock has moved past the row's current `updated_at`); `updated_at`
is set to the current time on every successful Update, whatever the request
supplies. -/
theorem update_refreshes_updated_at (tbl : Table) (id now : Nat)
    (req : UpdateItemRequest) (it : Item) (rest : List Item)
    (h : getItemRows tbl id = it :: rest)
    (hclk : it.updated_at < now)
    (hname : req.name = none) (hdesc : req.description = none) :
    UpdateItem tbl id now req =
      .ok ((updateItemRows tbl id now req).1, applyUpdate now req it) ∧
    (applyUpdate now req it).name = it.name ∧
    (applyUpdate now req it).description = it.description ∧
    (applyUpdate now req it).updated_at = now ∧
    it.updated_at < (applyUpdate now req it).updated_at ∧
    (∀ req' : UpdateItemRequest, (applyUpdate now req' it).updated_at = now) := by
  refine ⟨?_, ?_, ?_, ?_, ?_, ?_⟩
  · unfold UpdateItem
    rw [updateItemRows_snd, h]
    simp [getContext]
  · simp [applyUpdate, hname]
  · simp [applyUpdate, hdesc]
  · simp [applyUpdate]
  · simpa [applyUpdate] using hclk
  · intro req'; simp [applyUpdate]

theorem update_refreshes_updated_at_witness :
    (UpdateItem [⟨1, "a", some "x", 2, 3⟩] 1 9 ⟨none, none⟩ =
      .ok ((updateItemRows [⟨1, "a", some "x", 2, 3⟩] 1 9 ⟨none, none⟩).1,
           applyUpdate 9 ⟨none, none⟩ ⟨1, "a", some "x", 2, 3⟩)) ∧
    (applyUpdate 9 ⟨none, none⟩ ⟨1, "a", some "x", 2, 3⟩).name =
      (⟨1, "a", some "x", 2, 3⟩ : Item).name ∧
    (applyUpdate 9 ⟨none, none⟩ ⟨1, "a", some "x", 2, 3⟩).description =
      (⟨1, "a", some "x", 2, 3⟩ : Item).description ∧
    (applyUpdate 9 ⟨none, none⟩ ⟨1, "a", some "x", 2, 3⟩).updated_at = 9 ∧
    (⟨1, "a", some "x", 2, 3⟩ : Item).updated_at <
      (applyUpdate 9 ⟨none, none⟩ ⟨1, "a", some "x", 2, 3⟩).updated_at ∧
    (∀ req' : UpdateItemRequest,
      (applyUpdate 9 req' ⟨1, "a", some "x", 2, 3⟩).updated_at = 9) :=
  update_refreshes_updated_at [⟨1, "a", some "x", 2, 3⟩] 1 9 ⟨none, none⟩
    ⟨1, "a", some "x", 2, 3⟩ [] (by decide) (by decide) rfl rfl

/-- C7: for an existing item id, Delete removes the row and returns the
item's state as it was at deletion time, and a subsequent Get on the same id
yields `notFound`. -/
theorem delete_then_get_notFound (tbl : Table) (id : Nat) (it : Item)
    (h : getItemRows tbl id = [it]) :
    DeleteItem tbl id = .ok ((deleteItemRows tbl id).1, it) ∧
    GetItem (deleteItemRows tbl id).1 id = .error .notFound := by
  constructor
  · unfold DeleteItem
    rw [deleteItemRows_snd, h]
    rfl
  · unfold GetItem
    rw [getItemRows_deleteItemRows]
    rfl

theorem delete_then_get_notFound_witness :
    (DeleteItem [⟨1, "a", some "x", 0, 0⟩, ⟨2, "b", none, 1, 1⟩] 2 =
      .ok ((deleteItemRows [⟨1, "a", some "x", 0, 0⟩, ⟨2, "b", none, 1, 1⟩]
              2).1,
           ⟨2, "b", none, 1, 1⟩)) ∧
    (GetItem (deleteItemRows [⟨1, "a", some "x", 0, 0⟩, ⟨2, "b", none, 1, 1⟩]
        2).1 2 = .error .notFound) :=
  delete_then_get_notFound [⟨1, "a", some "x", 0, 0⟩, ⟨2, "b", none, 1, 1⟩]
    2 ⟨2, "b", none, 1, 1⟩ (by decide)

theorem clampListRequest_eq (l o : Int) :
    clampListRequest ⟨l, o⟩ =
      ⟨if l ≤ 0 then 10 else if l > 100 then 100 else l,
       if o < 0 then 0 else o⟩ := by
  simp only [clampListRequest]
  split_ifs <;> simp_all

theorem clampListRequest_of_gt100 (req : ListItemsRequest)
    (h : req.limit > 100) :
    clampListRequest req = clampListRequest ⟨100, req.offs⟩ := by
  rcases req with ⟨l, o⟩
  have h2 : l > 100 := h
  rw [clampListRequest_eq, clampListRequest_eq]
  congr 1
  split_ifs <;> omega

theorem clampListRequest_of_le_zero (req : ListItemsRequest)
    (h : req.limit ≤ 0) :
    clampListRequest req = clampListRequest ⟨10, req.offs⟩ := by
  rcases req with ⟨l, o⟩
  have h2 : l ≤ 0 := h
  rw [clampListRequest_eq, clampListRequest_eq]
  congr 1
  split_ifs <;> omega

theorem clampListRequest_of_neg_offs (req : ListItemsRequest)
    (h : req.offs < 0) :
    clampListRequest req = clampListRequest ⟨req.limit, 0⟩ := by
  rcases req with ⟨l, o⟩
  have h2 : o < 0 := h
  rw [clampListRequest_eq, clampListRequest_eq]
  congr 1
  split_ifs <;> omega

/-- C2: List with `limit > 100` behaves identically to List with
`limit = 100`; List with `limit ≤ 0` behaves identically to List with
`limit = 10`; List with `offset < 0` behaves identically to List with
`offset = 0` — same possible items, total, and echoed limit/offset. -/
theorem list_clamping (tbl : Table) (req : ListItemsRequest)
    (resp : ListItemsResponse) :
    (req.limit > 100 →
      (ListItems tbl req resp ↔ ListItems tbl ⟨100, req.offs⟩ resp)) ∧
    (req.limit ≤ 0 →
      (ListItems tbl req resp ↔ ListItems tbl ⟨10, req.offs⟩ resp)) ∧
    (req.offs < 0 →
      (ListItems tbl req resp ↔ ListItems tbl ⟨req.limit, 0⟩ resp)) := by
  refine ⟨fun h => ?_, fun h => ?_, fun h => ?_⟩ <;> unfold ListItems
  · rw [clampListRequest_of_gt100 req h]
  · rw [clampListRequest_of_le_zero req h]
  · rw [clampListRequest_of_neg_offs req h]

theorem list_clamping_witness :
    (ListItems [] ⟨150, 0⟩ ⟨[], 0, 100, 0⟩ ↔
      ListItems [] ⟨100, 0⟩ ⟨[], 0, 100, 0⟩) ∧
    (ListItems [] ⟨-5, 0⟩ ⟨[], 0, 10, 0⟩ ↔
      ListItems [] ⟨10, 0⟩ ⟨[], 0, 10, 0⟩) ∧
    (ListItems [] ⟨20, -3⟩ ⟨[], 0, 20, 0⟩ ↔
      ListItems [] ⟨20, 0⟩ ⟨[], 0, 20, 0⟩) :=
  ⟨(list_clamping [] ⟨150, 0⟩ ⟨[], 0, 100, 0⟩).1 (by decide),
   (list_clamping [] ⟨-5, 0⟩ ⟨[], 0, 10, 0⟩).2.1 (by decide),
   (list_clamping [] ⟨20, -3⟩ ⟨[], 0, 20, 0⟩).2.2 (by decide)⟩

/-- C6: the `total` returned by List equals the full count of all items in
the table, independent of the limit and offset arguments. -/
theorem list_total_full_count (tbl : Table) (req : ListItemsRequest)
    (resp : ListItemsResponse) (h : ListItems tbl req resp) :
    resp.total = tbl.length := h.1

theorem list_total_full_count_witness :
    (⟨[⟨1, "a", none, 1, 1⟩], 1, 10, 0⟩ : ListItemsResponse).total =
      ([⟨1, "a", none, 1, 1⟩] : Table).length :=
  list_total_full_count [⟨1, "a", none, 1, 1⟩] ⟨0, -1⟩
    ⟨[⟨1, "a", none, 1, 1⟩], 1, 10, 0⟩
    ⟨rfl, by decide, by decide,
     ⟨[⟨1, "a", none, 1, 1⟩], List.Perm.refl _, by simp [SortedDesc],
      by decide⟩⟩

/-- C10: no operation ever turns a non-absent description back into absent:
if an item in the table after a step has an absent description, then either
it already had an absent description before the step (same id), or the step
is a create whose request omitted the description. -/
theorem description_never_cleared (s : DbState) (a : Action) (it2 : Item)
    (hmem : it2 ∈ (stepResult s a).table) (hnone : it2.description = none) :
    (∃ it ∈ s.table, it.id = it2.id ∧ it.description = none) ∨
    (∃ req newId now, a = .create req newId now ∧
      req.description = none ∧ it2.id = newId) := by
  cases a with
  | create req newId now =>
    simp only [stepResult, CreateItem, List.mem_append,
      List.mem_singleton] at hmem
    rcases hmem with h | h
    · exact .inl ⟨it2, h, rfl, hnone⟩
    · subst h
      exact .inr ⟨req, newId, now, rfl, hnone, rfl⟩
  | update id req now =>
    simp only [stepResult, updateItemRows, List.mem_map] at hmem
    obtain ⟨it, hit, heq⟩ := hmem
    by_cases hid : (it.id == id) = true
    · rw [if_pos hid] at heq
      subst heq
      refine .inl ⟨it, hit, rfl, ?_⟩
      cases hd : req.description with
      | some d => simp [applyUpdate, hd] at hnone
      | none => simpa [applyUpdate, hd] using hnone
    · rw [if_neg hid] at heq
      subst heq
      exact .inl ⟨it, hit, rfl, hnone⟩
  | delete id =>
    simp only [stepResult, deleteItemRows, List.mem_filter] at hmem
    exact .inl ⟨it2, hmem.1, rfl, hnone⟩

theorem description_never_cleared_witness :
    (∃ it ∈ ([⟨1, "a", none, 1, 1⟩] : Table),
      it.id = (⟨1, "b", none, 1, 2⟩ : Item).id ∧ it.description = none) ∨
    (∃ req newId now,
      Action.update 1 ⟨some "b", none⟩ 2 = .create req newId now ∧
      req.description = none ∧ (⟨1, "b", none, 1, 2⟩ : Item).id = newId) :=
  description_never_cleared ⟨[⟨1, "a", none, 1, 1⟩], 1⟩
    (.update 1 ⟨some "b", none⟩ 2) ⟨1, "b", none, 1, 2⟩ (by decide) rfl

/-- C5 counterexample: a persisted item with an empty name IS reachable.
Create an item, then update it supplying `name` as the explicit empty
string: the update handler only checks that at least one field is present
(`UpdateItemRequest` carries no `required` binding), and
`COALESCE($2, name)` takes the supplied empty string. -/
theorem empty_name_reachable :
    ¬ (∀ s : DbState, Reachable s → ∀ it ∈ s.table, it.name ≠ "") := by
  intro hclaim
  have h1 : Step initState ⟨[⟨1, "a", none, 1, 1⟩], 1⟩ :=
    ⟨.create ⟨"a", none⟩ 1 1, ⟨by decide, by decide, by decide⟩, rfl⟩
  have h2 : Step ⟨[⟨1, "a", none, 1, 1⟩], 1⟩ ⟨[⟨1, "", none, 1, 2⟩], 2⟩ :=
    ⟨.update 1 ⟨some "", none⟩ 2, ⟨Or.inl rfl, by decide⟩, rfl⟩
  have hre : Reachable ⟨[⟨1, "", none, 1, 2⟩], 2⟩ :=
    Relation.ReflTransGen.tail (Relation.ReflTransGen.single h1) h2
  exact hclaim _ hre ⟨1, "", none, 1, 2⟩ (by decide) rfl

/-- An action that is an update explicitly supplying the empty string as the
new name. -/
def SuppliesEmptyName : Action → Prop
  | .update _ req _ => req.name = some ""
  | _ => False

/-- C5 amended: create rejects a missing/empty name before the store, and no
operation other than an Update that explicitly supplies `name = ""` can
persist an empty name: any step that is not such an update preserves
non-emptiness of every persisted name. -/
theorem nonempty_name_preserved (s : DbState) (a : Action)
    (hinv : ∀ it ∈ s.table, it.name ≠ "")
    (hv : ValidAction s a) (hne : ¬ SuppliesEmptyName a) :
    ∀ it2 ∈ (stepResult s a).table, it2.name ≠ "" := by
  intro it2 hmem
  cases a with
  | create req newId now =>
    simp only [stepResult, CreateItem, List.mem_append,
      List.mem_singleton] at hmem
    rcases hmem with h | h
    · exact hinv it2 h
    · subst h; exact hv.1
  | update id req now =>
    simp only [stepResult, updateItemRows, List.mem_map] at hmem
    obtain ⟨it, hit, heq⟩ := hmem
    by_cases hid : (it.id == id) = true
    · rw [if_pos hid] at heq
      subst heq
      cases hn : req.name with
      | none => simpa [applyUpdate, hn] using hinv it hit
      | some n =>
        have hn2 : n ≠ "" := fun hc =>
          hne (show SuppliesEmptyName _ by
            simp [SuppliesEmptyName, hn, hc])
        simpa [applyUpdate, hn] using hn2
    · rw [if_neg hid] at heq
      subst heq
      exact hinv it hit
  | delete id =>
    simp only [stepResult, deleteItemRows, List.mem_filter] at hmem
    exact hinv it2 hmem.1

theorem nonempty_name_preserved_witness :
    (⟨1, "b", none, 1, 2⟩ : Item).name ≠ "" :=
  nonempty_name_preserved ⟨[⟨1, "a", none, 1, 1⟩], 1⟩
    (.update 1 ⟨some "b", none⟩ 2)
    (by decide) ⟨Or.inl rfl, by decide⟩
    (fun hc => by simp [SuppliesEmptyName] at hc)
    ⟨1, "b", none, 1, 2⟩ (by decide)

/-- Auxiliary invariant for C8: every row's timestamps are ordered and
bounded by the store clock. -/
def TimeInv (s : DbState) : Prop :=
  ∀ it ∈ s.table, it.created_at ≤ it.updated_at ∧ it.updated_at ≤ s.clock

theorem step_timeInv {s1 s2 : DbState} (h : Step s1 s2) (hinv : TimeInv s1) :
    TimeInv s2 := by
  obtain ⟨a, hv, rfl⟩ := h
  cases a with
  | create req newId now =>
    intro it2 hmem
    simp only [stepResult, CreateItem, List.mem_append,
      List.mem_singleton] at hmem
    have hclk : s1.clock ≤ now := hv.2.2
    rcases hmem with h | h
    · obtain ⟨ha, hb⟩ := hinv it2 h
      exact ⟨ha, le_trans hb hclk⟩
    · subst h
      exact ⟨le_refl _, le_refl _⟩
  | update id req now =>
    intro it2 hmem
    simp only [stepResult, updateItemRows, List.mem_map] at hmem
    obtain ⟨it, hit, heq⟩ := hmem
    have hclk : s1.clock ≤ now := hv.2
    obtain ⟨ha, hb⟩ := hinv it hit
    by_cases hid : (it.id == id) = true
    · rw [if_pos hid] at heq
      subst heq
      exact ⟨le_trans ha (le_trans hb hclk), le_refl _⟩
    · rw [if_neg hid] at heq
      subst heq
      exact ⟨ha, le_trans hb hclk⟩
  | delete id =>
    intro it2 hmem
    simp only [stepResult, deleteItemRows, List.mem_filter] at hmem
    exact hinv it2 hmem.1

/-- C8: in every reachable state, every persisted item satisfies
`created_at ≤ updated_at`; Create establishes it (both timestamps are the
creation time) and every Update preserves it. -/
theorem created_le_updated (s : DbState) (h : Reachable s) :
    ∀ it ∈ s.table, it.created_at ≤ it.updated_at := by
  have hinv : TimeInv s := by
    unfold Reachable at h
    induction h with
    | refl => intro it hmem; simp [initState] at hmem
    | tail _ hlast ih => exact step_timeInv hlast ih
  intro it hmem
  exact (hinv it hmem).1

theorem created_le_updated_witness :
    (⟨1, "a", none, 1, 1⟩ : Item).created_at ≤
      (⟨1, "a", none, 1, 1⟩ : Item).updated_at :=
  created_le_updated ⟨[⟨1, "a", none, 1, 1⟩], 1⟩
    (Relation.ReflTransGen.single
      ⟨.create ⟨"a", none⟩ 1 1, ⟨by decide, by decide, by decide⟩, rfl⟩)
    ⟨1, "a", none, 1, 1⟩ (by decide)

theorem sortedDesc_window {s : List Item} (h : SortedDesc s) (n m : Nat) :
    SortedDesc ((s.drop n).take m) := by
  unfold SortedDesc at *
  exact h.sublist ((List.take_sublist m (s.drop n)).trans
    (List.drop_sublist n s))

theorem sortedDesc_perm_eq (l1 : List Item) (l2 : List Item)
    (hp : l1.Perm l2) (h1 : SortedDesc l1) (h2 : SortedDesc l2)
    (hnd : (l1.map Item.created_at).Nodup) : l1 = l2 := by
  induction l1 generalizing l2 with
  | nil => exact (hp.symm.eq_nil).symm
  | cons a t ih =>
    cases l2 with
    | nil => exact (List.cons_ne_nil a t hp.eq_nil).elim
    | cons b t2 =>
      obtain ⟨hle1, hp1⟩ := List.pairwise_cons.mp h1
      obtain ⟨hle2, hp2⟩ := List.pairwise_cons.mp h2
      obtain ⟨hnd1, hnd2⟩ :
          (∀ x ∈ t, ¬x.created_at = a.created_at) ∧
            (t.map Item.created_at).Nodup := by simpa using hnd
      have hab : a = b := by
        rcases List.mem_cons.mp
            (hp.symm.subset (List.mem_cons_self b t2)) with h | hbt
        · exact h.symm
        · rcases List.mem_cons.mp
              (hp.subset (List.mem_cons_self a t)) with h | hat2
          · exact h
          · have hba : b.created_at ≤ a.created_at := hle1 b hbt
            have hab2 : a.created_at ≤ b.created_at := hle2 a hat2
            exact ((hnd1 b hbt) (le_antisymm hba hab2)).elim
      subst hab
      rw [ih t2 hp.cons_inv hp1 hp2 hnd2]

/-- C9 counterexample: the order of List results is NOT deterministic when
two items share the same `created_at`: `ORDER BY created_at DESC` fixes no
tie-break, so two calls over the same table with the same arguments may
return the tied rows in either order. -/
theorem list_order_not_deterministic :
    ¬ (∀ (tbl : Table) (req : ListItemsRequest)
        (resp1 resp2 : ListItemsResponse),
        ListItems tbl req resp1 → ListItems tbl req resp2 →
        resp1.items = resp2.items) := by
  intro hclaim
  have h1 : ListItems [⟨1, "a", none, 5, 5⟩, ⟨2, "b", none, 5, 5⟩] ⟨10, 0⟩
      ⟨[⟨1, "a", none, 5, 5⟩, ⟨2, "b", none, 5, 5⟩], 2, 10, 0⟩ :=
    ⟨rfl, by decide, by decide,
     ⟨[⟨1, "a", none, 5, 5⟩, ⟨2, "b", none, 5, 5⟩], List.Perm.refl _,
      by unfold SortedDesc; decide, by decide⟩⟩
  have h2 : ListItems [⟨1, "a", none, 5, 5⟩, ⟨2, "b", none, 5, 5⟩] ⟨10, 0⟩
      ⟨[⟨2, "b", none, 5, 5⟩, ⟨1, "a", none, 5, 5⟩], 2, 10, 0⟩ :=
    ⟨rfl, by decide, by decide,
     ⟨[⟨2, "b", none, 5, 5⟩, ⟨1, "a", none, 5, 5⟩], by decide,
      by unfold SortedDesc; decide, by decide⟩⟩
  have heq := hclaim _ _ _ _ h1 h2
  exact absurd heq (by decide)

/-- C9 amended: every valid List result is ordered by `created_at`
descending (newest first); when the table's `created_at` values are pairwise
distinct the result is uniquely determined (two calls over the same state
with the same arguments return the same sequence), but the query specifies
no tie-break, so determinism is not guaranteed for equal timestamps. -/
theorem list_sorted_and_unique_keys_deterministic
    (tbl : Table) (req : ListItemsRequest) (resp : ListItemsResponse)
    (h : ListItems tbl req resp) :
    SortedDesc resp.items ∧
    ((tbl.map Item.created_at).Nodup →
      ∀ resp2, ListItems tbl req resp2 → resp.items = resp2.items) := by
  obtain ⟨-, -, -, s, hps, hss, hrows⟩ := h
  constructor
  · rw [hrows]; exact sortedDesc_window hss _ _
  · intro hnd resp2 h2
    obtain ⟨-, -, -, s2, hps2, hss2, hrows2⟩ := h2
    have hnds : (s.map Item.created_at).Nodup :=
      ((hps.map Item.created_at).nodup_iff).mpr hnd
    have hs : s = s2 :=
      sortedDesc_perm_eq s s2 (hps.trans hps2.symm) hss hss2 hnds
    rw [hrows, hrows2, hs]

theorem list_sorted_deterministic_witness :
    SortedDesc
      (⟨[⟨1, "a", none, 3, 3⟩], 1, 10, 0⟩ : ListItemsResponse).items ∧
    (⟨[⟨1, "a", none, 3, 3⟩], 1, 10, 0⟩ : ListItemsResponse).items =
      (⟨[⟨1, "a", none, 3, 3⟩], 1, 10, 0⟩ : ListItemsResponse).items :=
  ⟨(list_sorted_and_unique_keys_deterministic [⟨1, "a", none, 3, 3⟩] ⟨10, 0⟩
      ⟨[⟨1, "a", none, 3, 3⟩], 1, 10, 0⟩
      ⟨rfl, by decide, by decide,
       ⟨[⟨1, "a", none, 3, 3⟩], List.Perm.refl _,
        by unfold SortedDesc; decide, by decide⟩⟩).1,
   (list_sorted_and_unique_keys_deterministic [⟨1, "a", none, 3, 3⟩] ⟨10, 0⟩
      ⟨[⟨1, "a", none, 3, 3⟩], 1, 10, 0⟩
      ⟨rfl, by decide, by decide,
       ⟨[⟨1, "a", none, 3, 3⟩], List.Perm.refl _,
        by unfold SortedDesc; decide, by decide⟩⟩).2 (by decide)
     ⟨[⟨1, "a", none, 3, 3⟩], 1, 10, 0⟩
     ⟨rfl, by decide, by decide,
      ⟨[⟨1, "a", none, 3, 3⟩], List.Perm.refl _,
       by unfold SortedDesc; decide, by decide⟩⟩⟩

end MyGoService
